import Mathlib

/-!
Verification of `remediation/workflow/runnerlabel/runnerlabel.go`
(`ReplaceRunnerLabels` and its helpers) against the natural-language
specification of the runner-label rewriting core.

Modelling conventions:
* Text is a sequence of characters (`Str := List Char`); the YAML parser
  exposes 1-based line/column positions counted in characters.
* Go `int` values that can go negative under the source's `Line - 1` /
  `Column - 1` arithmetic are modelled as `Int`.
* The YAML parsing step (`yaml.Unmarshal`, an external library) is a
  parameter `parse : Str -> Except Str YamlNode`; concrete instantiations
  below mirror the trees the parser produces for concrete documents.
* A Go runtime fault (out-of-range slice or index) is modelled as `none`
  in the `Option` result of the text patcher.
-/

abbrev Str := List Char

/-- Node kinds of the position-annotated document tree (yaml.v3 `Kind`). -/
inductive NodeKind : Type where
  | documentNode
  | mappingNode
  | sequenceNode
  | scalarNode
  | aliasNode
deriving DecidableEq

/-- Position-annotated document tree, mirroring yaml.v3's `Node`:
a kind, the scalar value (empty for non-scalars), 1-based line and
column, and the ordered children (for mappings: alternating key/value). -/
inductive YamlNode : Type where
  | node (kind : NodeKind) (value : Str) (line : Int) (column : Int)
      (content : List YamlNode) : YamlNode

def YamlNode.kind : YamlNode → NodeKind
  | .node k _ _ _ _ => k

def YamlNode.value : YamlNode → Str
  | .node _ v _ _ _ => v

def YamlNode.line : YamlNode → Int
  | .node _ _ l _ _ => l

def YamlNode.column : YamlNode → Int
  | .node _ _ _ c _ => c

def YamlNode.content : YamlNode → List YamlNode
  | .node _ _ _ _ c => c

/-- A caller-supplied label map: association list from old label to new
label (Go `map[string]string`, used only for emptiness tests and key
lookups). -/
abbrev LabelMap := List (Str × Str)

/-- The parsing step, supplied as a parameter: on success it yields the
document's top-level mapping node. -/
abbrev ParseFun := Str → Except Str YamlNode

/-- `RunnerLabelMapping` represents the replacement to be performed
(job name, old/new label, 0-based line and column, structural context). -/
structure RunnerLabelMapping : Type where
  jobName : Str
  oldLabel : Str
  newLabel : Str
  lineNum : Int
  columnNum : Int
  isArray : Bool
  arrayIndex : Nat

def runsOnKey : Str := "runs-on".toList

def jobsKey : Str := "jobs".toList

/-- The error message the source wraps around a parse failure
(`fmt.Errorf("unable to parse yaml: %v", err)`). -/
def parseErrorMessage (e : Str) : Str := "unable to parse yaml: ".toList ++ e

/-- `findRunsOnNode`: scan a job mapping's children in key/value pairs;
on a key equal to `runs-on` with a following value, return that value.
A trailing key with no value (impossible for a parser-produced mapping)
falls out of the loop, as in the source (`i+1 < len` guard). -/
def findRunsOnRec : List YamlNode → Option YamlNode
  | keyNode :: valueNode :: rest =>
    if keyNode.value = runsOnKey then some valueNode else findRunsOnRec rest
  | _ => none

def findRunsOnNode (jobNode : YamlNode) : Option YamlNode :=
  findRunsOnRec jobNode.content

def findJobsInPairs : List YamlNode → Option YamlNode
  | keyNode :: valueNode :: rest =>
    if keyNode.value = jobsKey ∧ valueNode.kind = NodeKind.mappingNode then
      some valueNode
    else findJobsInPairs rest
  | _ => none

/-- Modelled from the spec: the source calls
`permissions.IterateNode(&t, "jobs", "!!map", 0)` from the permissions
package, which is not among the sources here. The spec says: "Locate the
top-level mapping entry whose key equals the reserved identifier for
jobs. If absent, treat as no eligible fields — not an error." We model
it as scanning the top-level mapping's key/value pairs for a key `jobs`
whose value is a mapping node (the `!!map` tag filter). -/
def findJobsNode (root : YamlNode) : Option YamlNode :=
  findJobsInPairs root.content

/-- Descriptors emitted for the elements of a sequence-valued `runs-on`
node, in element order, tracking the element index. -/
def seqReplacements (labelMap : LabelMap) (jobName : Str) :
    Nat → List YamlNode → List RunnerLabelMapping
  | _, [] => []
  | idx, labelNode :: rest =>
    (match List.lookup labelNode.value labelMap with
     | some newLabel =>
       [⟨jobName, labelNode.value, newLabel, labelNode.line - 1,
         labelNode.column - 1, true, idx⟩]
     | none => []) ++ seqReplacements labelMap jobName (idx + 1) rest

/-- Descriptors emitted for one job's `runs-on` node, by node kind:
scalar (single label), sequence (element per label), other kinds emit
nothing. -/
def runsOnReplacements (labelMap : LabelMap) (jobName : Str)
    (runsOnNode : YamlNode) : List RunnerLabelMapping :=
  match runsOnNode.kind with
  | NodeKind.scalarNode =>
    match List.lookup runsOnNode.value labelMap with
    | some newLabel =>
      [⟨jobName, runsOnNode.value, newLabel, runsOnNode.line - 1,
        runsOnNode.column - 1, false, 0⟩]
    | none => []
  | NodeKind.sequenceNode => seqReplacements labelMap jobName 0 runsOnNode.content
  | _ => []

/-- The locator's loop over the jobs mapping's key/value pairs: for each
job, descriptors of its `runs-on` node (jobs without one are skipped),
in document order. -/
def collectReplacements (labelMap : LabelMap) : List YamlNode → List RunnerLabelMapping
  | jobNameNode :: jobNode :: rest =>
    (match findRunsOnNode jobNode with
     | some runsOnNode => runsOnReplacements labelMap jobNameNode.value runsOnNode
     | none => []) ++ collectReplacements labelMap rest
  | _ => []

/-- `strings.Split(s, "\n")`: split on the newline character; never
returns the empty list. -/
def splitOnNl : Str → List Str
  | [] => [[]]
  | c :: rest =>
    if c = '\n' then [] :: splitOnNl rest
    else
      match splitOnNl rest with
      | l :: ls => (c :: l) :: ls
      | [] => [[c]]

/-- `strings.Join(lines, "\n")`. -/
def joinNl : List Str → Str
  | [] => []
  | [l] => l
  | l :: ls => l ++ '\n' :: joinNl ls

/-- `strings.Replace(s, old, new, 1)`: replace the first occurrence of
`old` in `s` by `new` (for empty `old`, Go inserts `new` at the start). -/
def replaceFirst (old new : Str) : Str → Str
  | [] => if old.isEmpty then new else []
  | c :: rest =>
    if old.isPrefixOf (c :: rest) then new ++ (c :: rest).drop old.length
    else c :: replaceFirst old new rest

/-- One iteration of the patch loop: skip a descriptor whose line index
is at least the number of lines (the source's only bounds check); index
and slice as the source does, with `none` marking an out-of-range index
or slice (a Go runtime fault); otherwise split the line at the column,
replace the first occurrence of the old label within the suffix only,
write the reassembled line back and mark the operation changed. -/
def applyRepl (st : List Str × Bool) (r : RunnerLabelMapping) :
    Option (List Str × Bool) :=
  if ((st.1.length : Int) ≤ r.lineNum) then some st
  else if r.lineNum < 0 then none
  else
    let oldLine := st.1.getD r.lineNum.toNat []
    if r.columnNum < 0 ∨ (oldLine.length : Int) < r.columnNum then none
    else
      let pre := oldLine.take r.columnNum.toNat
      let oldLineAfterColumn := oldLine.drop r.columnNum.toNat
      let newLineAfterColumn := replaceFirst r.oldLabel r.newLabel oldLineAfterColumn
      some (st.1.set r.lineNum.toNat (pre ++ newLineAfterColumn), true)

/-- The patch loop over all descriptors, starting from the split lines
and `updated = false`. -/
def patchAll (st : List Str × Bool) : List RunnerLabelMapping → Option (List Str × Bool)
  | [] => some st
  | r :: rs =>
    match applyRepl st r with
    | none => none
    | some st' => patchAll st' rs

/-- `ReplaceRunnerLabels` replaces runner labels in a workflow based on
the provided label map; returns the updated document, a changed flag and
an optional error. The result is wrapped in `Option`, `none` standing
for a runtime fault in the patch loop. -/
def ReplaceRunnerLabels (parse : ParseFun) (inputYaml : Str)
    (labelMap : LabelMap) : Option (Str × Bool × Option Str) :=
  if labelMap.isEmpty then some (inputYaml, false, none)
  else
    match parse inputYaml with
    | .error e => some ([], false, some (parseErrorMessage e))
    | .ok t =>
      match findJobsNode t with
      | none => some (inputYaml, false, none)
      | some jobsNode =>
        let replacements := collectReplacements labelMap jobsNode.content
        if replacements.isEmpty then some (inputYaml, false, none)
        else
          match patchAll (splitOnNl inputYaml, false) replacements with
          | none => none
          | some (lines, updated) => some (joinNl lines, updated, none)

/-- The descriptors the locator emits for a given input and label map
(empty along every early-return path). -/
def emittedReplacements (parse : ParseFun) (inputYaml : Str)
    (labelMap : LabelMap) : List RunnerLabelMapping :=
  if labelMap.isEmpty then []
  else
    match parse inputYaml with
    | .error _ => []
    | .ok t =>
      match findJobsNode t with
      | none => []
      | some jobsNode => collectReplacements labelMap jobsNode.content

/-- The key/value pairs of a mapping node's children, in order. -/
def mapPairs : List YamlNode → List (YamlNode × YamlNode)
  | k :: v :: rest => (k, v) :: mapPairs rest
  | _ => []

/-- A `runs-on` node contributes no descriptor: unsupported kind,
non-matching scalar, or sequence with no matching element. -/
def runsOnNoOpB (labelMap : LabelMap) (runsOnNode : YamlNode) : Bool :=
  match runsOnNode.kind with
  | NodeKind.scalarNode => (List.lookup runsOnNode.value labelMap).isNone
  | NodeKind.sequenceNode =>
    runsOnNode.content.all fun n => (List.lookup n.value labelMap).isNone
  | _ => true

/-- A job contributes no descriptor: no `runs-on` entry, or a `runs-on`
node that contributes none. -/
def jobNoOpB (labelMap : LabelMap) (jobNode : YamlNode) : Bool :=
  match findRunsOnNode jobNode with
  | none => true
  | some r => runsOnNoOpB labelMap r

/-- No `runs-on` label of the parsed document is a key of the label map
(the jobs entry may also be absent). -/
def noEligibleLabels (labelMap : LabelMap) (root : YamlNode) : Bool :=
  match findJobsNode root with
  | none => true
  | some js => (collectReplacements labelMap js.content).isEmpty

/-!
Concrete documents, trees and parse functions used by the concrete
theorems and witnesses below. Tree shapes and positions mirror what
yaml.v3 reports for the corresponding document.
-/

def docC6 : Str := "jobs:\n  test:\n    runs-on: [ubuntu-latest, windows-latest]".toList

def outC6 : Str := "jobs:\n  test:\n    runs-on: [step-ubuntu-24, step-windows]".toList

def treeC6 : YamlNode :=
  .node .mappingNode [] 1 1 [
    .node .scalarNode ("jobs".toList) 1 1 [],
    .node .mappingNode [] 2 3 [
      .node .scalarNode ("test".toList) 2 3 [],
      .node .mappingNode [] 3 5 [
        .node .scalarNode ("runs-on".toList) 3 5 [],
        .node .sequenceNode [] 3 14 [
          .node .scalarNode ("ubuntu-latest".toList) 3 15 [],
          .node .scalarNode ("windows-latest".toList) 3 30 []]]]]

def parseC6 : ParseFun := fun s =>
  if s = docC6 then .ok treeC6 else .error ("bad".toList)

def labelMapC6 : LabelMap :=
  [("ubuntu-latest".toList, "step-ubuntu-24".toList),
   ("windows-latest".toList, "step-windows".toList)]

def docC7a : Str := "jobs:\n  j:\n    runs-on: a".toList

def docC7b : Str := "jobs:\n  j:\n    runs-on: b".toList

def treeC7a : YamlNode :=
  .node .mappingNode [] 1 1 [
    .node .scalarNode ("jobs".toList) 1 1 [],
    .node .mappingNode [] 2 3 [
      .node .scalarNode ("j".toList) 2 3 [],
      .node .mappingNode [] 3 5 [
        .node .scalarNode ("runs-on".toList) 3 5 [],
        .node .scalarNode ("a".toList) 3 14 []]]]

def treeC7b : YamlNode :=
  .node .mappingNode [] 1 1 [
    .node .scalarNode ("jobs".toList) 1 1 [],
    .node .mappingNode [] 2 3 [
      .node .scalarNode ("j".toList) 2 3 [],
      .node .mappingNode [] 3 5 [
        .node .scalarNode ("runs-on".toList) 3 5 [],
        .node .scalarNode ("b".toList) 3 14 []]]]

def parseC7 : ParseFun := fun s =>
  if s = docC7a then .ok treeC7a
  else if s = docC7b then .ok treeC7b
  else .error ("bad".toList)

def labelMapC7 : LabelMap := [("a".toList, "b".toList), ("b".toList, "a".toList)]

def docC7wa : Str := "jobs:\n  j:\n    runs-on: c".toList

def docC7wb : Str := "jobs:\n  j:\n    runs-on: d".toList

def treeC7wa : YamlNode :=
  .node .mappingNode [] 1 1 [
    .node .scalarNode ("jobs".toList) 1 1 [],
    .node .mappingNode [] 2 3 [
      .node .scalarNode ("j".toList) 2 3 [],
      .node .mappingNode [] 3 5 [
        .node .scalarNode ("runs-on".toList) 3 5 [],
        .node .scalarNode ("c".toList) 3 14 []]]]

def treeC7wb : YamlNode :=
  .node .mappingNode [] 1 1 [
    .node .scalarNode ("jobs".toList) 1 1 [],
    .node .mappingNode [] 2 3 [
      .node .scalarNode ("j".toList) 2 3 [],
      .node .mappingNode [] 3 5 [
        .node .scalarNode ("runs-on".toList) 3 5 [],
        .node .scalarNode ("d".toList) 3 14 []]]]

def parseC7w : ParseFun := fun s =>
  if s = docC7wa then .ok treeC7wa
  else if s = docC7wb then .ok treeC7wb
  else .error ("bad".toList)

def labelMapC7w : LabelMap := [("c".toList, "d".toList)]

def lineC1w : Str := "k: a".toList

def rC1w : RunnerLabelMapping :=
  ⟨"j".toList, "a".toList, "b".toList, 0, 3, false, 0⟩

def lineC9w : Str := "    runs-on: x".toList

def rC9w : RunnerLabelMapping :=
  ⟨"j".toList, "x".toList, "y".toList, 0, 13, false, 0⟩

def lineC10w : Str := "x: a".toList

def rC10w : RunnerLabelMapping :=
  ⟨"j".toList, "a".toList, "a".toList, 0, 3, false, 0⟩

def parseC3w : ParseFun := fun _ => .error ("boom".toList)

def parseC4w : ParseFun := fun _ => .error ("invalid yaml".toList)

def docC2w : Str := "name: x\njobs:\n  j:\n    runs-on: a".toList

def docC2wOut : Str := "name: x\njobs:\n  j:\n    runs-on: b".toList

def treeC2w : YamlNode :=
  .node .mappingNode [] 1 1 [
    .node .scalarNode ("name".toList) 1 1 [],
    .node .scalarNode ("x".toList) 1 7 [],
    .node .scalarNode ("jobs".toList) 2 1 [],
    .node .mappingNode [] 3 3 [
      .node .scalarNode ("j".toList) 3 3 [],
      .node .mappingNode [] 4 5 [
        .node .scalarNode ("runs-on".toList) 4 5 [],
        .node .scalarNode ("a".toList) 4 14 []]]]

def parseC2w : ParseFun := fun s =>
  if s = docC2w then .ok treeC2w else .error ("bad".toList)

def labelMapC2w : LabelMap := [("a".toList, "b".toList)]

def docC5w : Str :=
  "jobs:\n  a:\n    container: x\n  b:\n    runs-on:\n      group: g\n  c:\n    runs-on: macos-latest".toList

def jsC5w : YamlNode :=
  .node .mappingNode [] 2 3 [
    .node .scalarNode ("a".toList) 2 3 [],
    .node .mappingNode [] 3 5 [
      .node .scalarNode ("container".toList) 3 5 [],
      .node .scalarNode ("x".toList) 3 16 []],
    .node .scalarNode ("b".toList) 4 3 [],
    .node .mappingNode [] 5 5 [
      .node .scalarNode ("runs-on".toList) 5 5 [],
      .node .mappingNode [] 6 7 [
        .node .scalarNode ("group".toList) 6 7 [],
        .node .scalarNode ("g".toList) 6 14 []]],
    .node .scalarNode ("c".toList) 7 3 [],
    .node .mappingNode [] 8 5 [
      .node .scalarNode ("runs-on".toList) 8 5 [],
      .node .scalarNode ("macos-latest".toList) 8 14 []]]

def treeC5w : YamlNode :=
  .node .mappingNode [] 1 1 [.node .scalarNode ("jobs".toList) 1 1 [], jsC5w]

def parseC5w : ParseFun := fun s =>
  if s = docC5w then .ok treeC5w else .error ("bad".toList)

def labelMapC5w : LabelMap := [("ubuntu-latest".toList, "step-ubuntu-24".toList)]

def docC8w : Str := "jobs:\n  j:\n    runs-on: a".toList

def jsC8w : YamlNode :=
  .node .mappingNode [] 2 3 [
    .node .scalarNode ("j".toList) 2 3 [],
    .node .mappingNode [] 3 5 [
      .node .scalarNode ("runs-on".toList) 3 5 [],
      .node .scalarNode ("a".toList) 100 14 []]]

def treeC8w : YamlNode :=
  .node .mappingNode [] 1 1 [.node .scalarNode ("jobs".toList) 1 1 [], jsC8w]

def parseC8w : ParseFun := fun s =>
  if s = docC8w then .ok treeC8w else .error ("bad".toList)

def labelMapC8w : LabelMap := [("a".toList, "b".toList)]

def docC10 : Str := "jobs:\n  j:\n    runs-on: a".toList

def treeC10 : YamlNode :=
  .node .mappingNode [] 1 1 [
    .node .scalarNode ("jobs".toList) 1 1 [],
    .node .mappingNode [] 2 3 [
      .node .scalarNode ("j".toList) 2 3 [],
      .node .mappingNode [] 3 5 [
        .node .scalarNode ("runs-on".toList) 3 5 [],
        .node .scalarNode ("a".toList) 3 14 []]]]

def parseC10 : ParseFun := fun s =>
  if s = docC10 then .ok treeC10 else .error ("bad".toList)

def labelMapC10 : LabelMap := [("a".toList, "a".toList)]

/-!
Helper lemmas about the patching primitives.
-/

theorem splitOnNl_ne_nil (s : Str) : splitOnNl s ≠ [] := by
  cases s with
  | nil => simp [splitOnNl]
  | cons c rest =>
    simp only [splitOnNl]
    split
    · simp
    · cases h : splitOnNl rest <;> simp

theorem joinNl_splitOnNl (s : Str) : joinNl (splitOnNl s) = s := by
  induction s with
  | nil => rfl
  | cons c rest ih =>
    by_cases hc : c = '\n'
    · subst hc
      simp only [splitOnNl, if_pos rfl]
      obtain ⟨l, ls, hls⟩ : ∃ l ls, splitOnNl rest = l :: ls := by
        cases h : splitOnNl rest with
        | nil => exact absurd h (splitOnNl_ne_nil rest)
        | cons l ls => exact ⟨l, ls, rfl⟩
      rw [hls] at ih ⊢
      simp only [joinNl, List.nil_append]
      rw [ih]
    · simp only [splitOnNl, if_neg hc]
      cases h : splitOnNl rest with
      | nil => exact absurd h (splitOnNl_ne_nil rest)
      | cons l ls =>
        rw [h] at ih
        cases ls with
        | nil => simp only [joinNl] at ih ⊢; rw [ih]
        | cons l2 ls2 =>
          simp only [joinNl, List.cons_append] at ih ⊢
          rw [ih]

theorem replaceFirst_no_occurrence (old new s : Str) (h : ¬ old <:+: s) :
    replaceFirst old new s = s := by
  induction s with
  | nil =>
    have hne : old ≠ [] := by
      rintro rfl
      exact h List.nil_infix
    simp [replaceFirst, List.isEmpty_iff, hne]
  | cons c rest ih =>
    rw [replaceFirst, if_neg, ih]
    · intro hi
      exact h (List.infix_cons hi)
    · intro hp
      rw [ List.isPrefixOf_iff_prefix] at hp
      obtain ⟨t, ht⟩ := hp
      exact h ⟨[], t, by simpa using ht⟩

theorem replaceFirst_first_occurrence (old new s : Str) (h : old <:+: s) :
    ∃ a b, s = a ++ old ++ b ∧
      (∀ a' b', s = a' ++ old ++ b' → a.length ≤ a'.length) ∧
      replaceFirst old new s = a ++ new ++ b := by
  induction s with
  | nil =>
    have hold : old = [] := List.infix_nil.mp h
    subst hold
    exact ⟨[], [], rfl, fun _ _ _ => Nat.zero_le _, by simp [replaceFirst]⟩
  | cons c rest ih =>
    by_cases hp : old <+: (c :: rest)
    · obtain ⟨t, ht⟩ := hp
      refine ⟨[], t, by simp [ht.symm], fun _ _ _ => Nat.zero_le _, ?_⟩
      rw [replaceFirst, if_pos]
      · rw [← ht, List.drop_left]
        simp
      · rw [ List.isPrefixOf_iff_prefix]
        exact ⟨t, ht⟩
    · have hrest : old <:+: rest := by
        obtain ⟨a, b, hab⟩ := h
        cases a with
        | nil =>
          exact absurd ⟨b, by simpa using hab⟩ hp
        | cons a0 a1 =>
          have : a1 ++ old ++ b = rest := by
            simpa using congrArg List.tail hab
          exact ⟨a1, b, this⟩
      obtain ⟨a, b, hs, hmin, hrep⟩ := ih hrest
      refine ⟨c :: a, b, by simp [hs], ?_, ?_⟩
      · intro a' b' h'
        cases a' with
        | nil =>
          exact absurd ⟨b', by simpa using h'.symm⟩ hp
        | cons a0 a1 =>
          have : rest = a1 ++ old ++ b' := by
            simpa using congrArg List.tail h'
          simpa using Nat.succ_le_succ (hmin a1 b' this)
      · rw [replaceFirst, if_neg, hrep]
        · simp
        · intro hb
          rw [ List.isPrefixOf_iff_prefix] at hb
          exact hp hb

theorem applyRepl_skip (st : List Str × Bool) (r : RunnerLabelMapping)
    (h : (st.1.length : Int) ≤ r.lineNum) : applyRepl st r = some st := by
  simp [applyRepl, if_pos h]

theorem applyRepl_apply (st : List Str × Bool) (r : RunnerLabelMapping)
    (h0 : 0 ≤ r.lineNum) (h1 : r.lineNum < (st.1.length : Int))
    (h2 : 0 ≤ r.columnNum)
    (h3 : r.columnNum ≤ ((st.1.getD r.lineNum.toNat []).length : Int)) :
    applyRepl st r = some (st.1.set r.lineNum.toNat
      ((st.1.getD r.lineNum.toNat []).take r.columnNum.toNat ++
        replaceFirst r.oldLabel r.newLabel
          ((st.1.getD r.lineNum.toNat []).drop r.columnNum.toNat)), true) := by
  simp only [applyRepl]
  rw [if_neg (by omega), if_neg (by omega), if_neg (by omega)]

theorem applyRepl_cases (st st' : List Str × Bool) (r : RunnerLabelMapping)
    (h : applyRepl st r = some st') :
    st' = st ∨
      (0 ≤ r.lineNum ∧ r.lineNum < (st.1.length : Int) ∧
        ∃ newLine, st'.1 = st.1.set r.lineNum.toNat newLine ∧ st'.2 = true) := by
  simp only [applyRepl] at h
  split at h
  · exact Or.inl (Option.some.inj h).symm
  · rename_i hA
    split at h
    · cases h
    · rename_i hB
      split at h
      · cases h
      · rename_i hC
        right
        obtain rfl := (Option.some.inj h).symm
        exact ⟨by omega, by omega, _, rfl, rfl⟩

theorem patchAll_oob (rs : List RunnerLabelMapping) : ∀ (st : List Str × Bool),
    (∀ r ∈ rs, (st.1.length : Int) ≤ r.lineNum) → patchAll st rs = some st := by
  induction rs with
  | nil => intro st _; rfl
  | cons r rs ih =>
    intro st h
    rw [patchAll, applyRepl_skip st r (h r (List.mem_cons_self r rs))]
    exact ih st (fun r' hr' => h r' (List.mem_cons_of_mem r hr'))

theorem patchAll_frame (rs : List RunnerLabelMapping) :
    ∀ (st : List Str × Bool) (lines' : List Str) (u' : Bool),
      patchAll st rs = some (lines', u') →
      lines'.length = st.1.length ∧
      ∀ j : Nat, (∀ r ∈ rs, (j : Int) ≠ r.lineNum) →
        lines'.getD j [] = st.1.getD j [] := by
  induction rs with
  | nil =>
    intro st l' u' h
    obtain rfl : st = (l', u') := Option.some.inj h
    exact ⟨rfl, fun _ _ => rfl⟩
  | cons r rs ih =>
    intro st l' u' h
    rw [patchAll] at h
    cases ha : applyRepl st r with
    | none => rw [ha] at h; cases h
    | some st1 =>
      rw [ha] at h
      obtain ⟨hlen, hframe⟩ := ih st1 l' u' h
      rcases applyRepl_cases st st1 r ha with rfl | ⟨h0, h1, nl, hset, _⟩
      · exact ⟨hlen, fun j hj =>
          hframe j (fun r' hr' => hj r' (List.mem_cons_of_mem r hr'))⟩
      · constructor
        · rw [hlen, hset, List.length_set]
        · intro j hj
          have hjr : (j : Int) ≠ r.lineNum := hj r (List.mem_cons_self r rs)
          rw [hframe j (fun r' hr' => hj r' (List.mem_cons_of_mem r hr')), hset]
          rw [List.getD_eq_getElem?_getD, List.getD_eq_getElem?_getD,
            List.getElem?_set_ne (by omega)]

theorem seqReplacements_eq_nil (labelMap : LabelMap) (jobName : Str) :
    ∀ (content : List YamlNode) (idx : Nat),
      (content.all fun n => (List.lookup n.value labelMap).isNone) = true →
      seqReplacements labelMap jobName idx content = []
  | [], _, _ => rfl
  | n :: rest, idx, h => by
    simp only [List.all_cons, Bool.and_eq_true] at h
    rw [seqReplacements,
      seqReplacements_eq_nil labelMap jobName rest (idx + 1) h.2,
      Option.isNone_iff_eq_none.mp h.1]
    simp

theorem runsOnReplacements_eq_nil (labelMap : LabelMap) (jobName : Str)
    (r : YamlNode) (h : runsOnNoOpB labelMap r = true) :
    runsOnReplacements labelMap jobName r = [] := by
  rw [runsOnReplacements]
  rw [runsOnNoOpB] at h
  cases hk : r.kind <;> rw [hk] at h <;> simp only []
  case scalarNode => rw [Option.isNone_iff_eq_none.mp h]
  case sequenceNode => exact seqReplacements_eq_nil labelMap jobName r.content 0 h

theorem collectReplacements_eq_nil (labelMap : LabelMap) :
    ∀ (l : List YamlNode),
      ((mapPairs l).all fun p => jobNoOpB labelMap p.2) = true →
      collectReplacements labelMap l = []
  | [], _ => rfl
  | [_], _ => rfl
  | k :: v :: rest, h => by
    simp only [mapPairs, List.all_cons, Bool.and_eq_true] at h
    rw [collectReplacements, collectReplacements_eq_nil labelMap rest h.2]
    have h1 := h.1
    rw [jobNoOpB] at h1
    cases hf : findRunsOnNode v with
    | none => simp
    | some r =>
      rw [hf] at h1
      simp only [] at h1
      simp only [List.append_nil]
      rw [runsOnReplacements_eq_nil labelMap k.value r h1]

/-!
The claims.
-/

/-- Claim C1: for every replacement descriptor applied by the text
patcher whose line index is in bounds (and whose recorded column is a
valid slice point, as the patcher's slicing presumes), the patched line
equals the characters of the line before the recorded column, unchanged,
followed by the suffix from that column in which exactly the first
occurrence of the old label's literal text, if any, is replaced by the
new label's literal text; the part of the line before the recorded
column is never searched or modified. -/
theorem patcher_suffix_scoped_first_occurrence (lines : List Str) (u : Bool)
    (r : RunnerLabelMapping)
    (h0 : 0 ≤ r.lineNum) (h1 : r.lineNum < (lines.length : Int))
    (h2 : 0 ≤ r.columnNum)
    (h3 : r.columnNum ≤ ((lines.getD r.lineNum.toNat []).length : Int)) :
    ∃ lines' : List Str,
      applyRepl (lines, u) r = some (lines', true) ∧
      lines' = lines.set r.lineNum.toNat
        ((lines.getD r.lineNum.toNat []).take r.columnNum.toNat ++
          replaceFirst r.oldLabel r.newLabel
            ((lines.getD r.lineNum.toNat []).drop r.columnNum.toNat)) ∧
      (lines'.getD r.lineNum.toNat []).take r.columnNum.toNat =
        (lines.getD r.lineNum.toNat []).take r.columnNum.toNat ∧
      (¬ r.oldLabel <:+: (lines.getD r.lineNum.toNat []).drop r.columnNum.toNat →
        lines'.getD r.lineNum.toNat [] = lines.getD r.lineNum.toNat []) ∧
      (r.oldLabel <:+: (lines.getD r.lineNum.toNat []).drop r.columnNum.toNat →
        ∃ a b,
          (lines.getD r.lineNum.toNat []).drop r.columnNum.toNat =
            a ++ r.oldLabel ++ b ∧
          (∀ a' b',
            (lines.getD r.lineNum.toNat []).drop r.columnNum.toNat =
              a' ++ r.oldLabel ++ b' → a.length ≤ a'.length) ∧
          lines'.getD r.lineNum.toNat [] =
            (lines.getD r.lineNum.toNat []).take r.columnNum.toNat ++
              a ++ r.newLabel ++ b) := by
  have hilt : r.lineNum.toNat < lines.length := by omega
  have hcollen : r.columnNum.toNat ≤ (lines.getD r.lineNum.toNat []).length := by
    omega
  refine ⟨_, applyRepl_apply (lines, u) r h0 h1 h2 h3, rfl, ?_, ?_, ?_⟩
  all_goals
    have hget : (lines.set r.lineNum.toNat
        ((lines.getD r.lineNum.toNat []).take r.columnNum.toNat ++
          replaceFirst r.oldLabel r.newLabel
            ((lines.getD r.lineNum.toNat []).drop r.columnNum.toNat))).getD
          r.lineNum.toNat [] =
        (lines.getD r.lineNum.toNat []).take r.columnNum.toNat ++
          replaceFirst r.oldLabel r.newLabel
            ((lines.getD r.lineNum.toNat []).drop r.columnNum.toNat) := by
      rw [List.getD_eq_getElem?_getD, List.getElem?_set_self hilt, Option.getD_some]
  · rw [hget]
    exact List.take_left' (by rw [List.length_take]; omega)
  · intro hno
    rw [hget, replaceFirst_no_occurrence _ _ _ hno, List.take_append_drop]
  · intro hyes
    obtain ⟨a, b, hab, hmin, hrep⟩ :=
      replaceFirst_first_occurrence r.oldLabel r.newLabel _ hyes
    refine ⟨a, b, hab, hmin, ?_⟩
    rw [hget, hrep]
    simp [List.append_assoc]

/-- Witness for claim C1 at a concrete line and descriptor. -/
theorem patcher_suffix_scoped_first_occurrence_witness :
    ∃ lines' : List Str,
      applyRepl ([lineC1w], false) rC1w = some (lines', true) := by
  obtain ⟨l', hl', -, -, -, -⟩ :=
    patcher_suffix_scoped_first_occurrence [lineC1w] false rC1w
      (by decide) (by decide) (by decide) (by decide)
  exact ⟨l', hl'⟩

/-- Claim C2: for every input document and label map, on any non-error
result the output is the join of a line array of the same length as the
input's line array in which every line whose 0-based index is not the
line index of some emitted replacement descriptor is character-identical
to the corresponding input line. -/
theorem locality_untargeted_lines_unchanged (parse : ParseFun)
    (inputYaml out : Str) (labelMap : LabelMap) (ch : Bool)
    (h : ReplaceRunnerLabels parse inputYaml labelMap = some (out, ch, none)) :
    ∃ lines' : List Str, out = joinNl lines' ∧
      lines'.length = (splitOnNl inputYaml).length ∧
      ∀ j : Nat,
        (∀ r ∈ emittedReplacements parse inputYaml labelMap,
          (j : Int) ≠ r.lineNum) →
        lines'.getD j [] = (splitOnNl inputYaml).getD j [] := by
  rw [ReplaceRunnerLabels] at h
  rw [emittedReplacements]
  by_cases hm : labelMap.isEmpty
  · rw [if_pos hm] at h
    obtain ⟨h1, -, -⟩ : inputYaml = out ∧ false = ch ∧ (none : Option Str) = none := by
      simpa using h
    exact ⟨splitOnNl inputYaml, by rw [joinNl_splitOnNl, h1], rfl, fun _ _ => rfl⟩
  · simp only [Bool.not_eq_true] at hm
    simp only [hm, Bool.false_eq_true, if_false] at h ⊢
    cases hp : parse inputYaml with
    | error e => rw [hp] at h; simp at h
    | ok t =>
      rw [hp] at h
      simp only [] at h
      cases hj : findJobsNode t with
      | none =>
        rw [hj] at h
        simp only [] at h
        obtain ⟨h1, -, -⟩ :
            inputYaml = out ∧ false = ch ∧ (none : Option Str) = none := by
          simpa using h
        exact ⟨splitOnNl inputYaml, by rw [joinNl_splitOnNl, h1], rfl,
          fun _ _ => rfl⟩
      | some js =>
        rw [hj] at h
        simp only [] at h
        by_cases hrep : (collectReplacements labelMap js.content).isEmpty
        · rw [if_pos hrep] at h
          obtain ⟨h1, -, -⟩ :
              inputYaml = out ∧ false = ch ∧ (none : Option Str) = none := by
            simpa using h
          exact ⟨splitOnNl inputYaml, by rw [joinNl_splitOnNl, h1], rfl,
            fun _ _ => rfl⟩
        · rw [if_neg hrep] at h
          cases hpatch : patchAll (splitOnNl inputYaml, false)
              (collectReplacements labelMap js.content) with
          | none => rw [hpatch] at h; cases h
          | some p =>
            rw [hpatch] at h
            obtain ⟨lines2, u2⟩ := p
            obtain ⟨h1, -, -⟩ :
                joinNl lines2 = out ∧ u2 = ch ∧ (none : Option Str) = none := by
              simpa using h
            obtain ⟨hlen, hframe⟩ :=
              patchAll_frame (collectReplacements labelMap js.content)
                (splitOnNl inputYaml, false) lines2 u2 hpatch
            refine ⟨lines2, h1.symm, hlen, ?_⟩
            intro j hj2
            refine hframe j ?_
            intro r hr
            refine hj2 r ?_
            simp only [hp, hj]
            exact hr

/-- Witness for claim C2 at a concrete document, map and output. -/
theorem locality_untargeted_lines_unchanged_witness : ∃ lines' : List Str,
    docC2wOut = joinNl lines' ∧
    lines'.length = (splitOnNl docC2w).length ∧
    ∀ j : Nat,
      (∀ r ∈ emittedReplacements parseC2w docC2w labelMapC2w,
        (j : Int) ≠ r.lineNum) →
      lines'.getD j [] = (splitOnNl docC2w).getD j [] :=
  locality_untargeted_lines_unchanged parseC2w docC2w docC2wOut labelMapC2w
    true (by decide)

/-- Claim C3: for every non-empty label map, if parsing the input fails,
`ReplaceRunnerLabels` returns the empty string, `changed = false` and a
parse error; no replacement is applied to the text. -/
theorem parse_failure_returns_empty_and_error (parse : ParseFun)
    (inputYaml : Str) (labelMap : LabelMap) (e : Str)
    (h0 : labelMap.isEmpty = false) (h1 : parse inputYaml = .error e) :
    ReplaceRunnerLabels parse inputYaml labelMap =
      some ([], false, some (parseErrorMessage e)) := by
  rw [ReplaceRunnerLabels, if_neg (by simp [h0]), h1]

/-- Witness for claim C3 at a concrete failing parse. -/
theorem parse_failure_returns_empty_and_error_witness :
    ReplaceRunnerLabels parseC3w ("runs-on: [".toList)
      [("a".toList, "b".toList)] =
    some ([], false, some (parseErrorMessage ("boom".toList))) :=
  parse_failure_returns_empty_and_error parseC3w ("runs-on: [".toList)
    [("a".toList, "b".toList)] ("boom".toList) (by decide) rfl

/-- Claim C4: for every input string and every parse function (so in
particular without the parse ever being consulted), an empty label map
makes `ReplaceRunnerLabels` return the input unchanged, `changed =
false` and no error — even when the input is not valid YAML. -/
theorem empty_label_map_short_circuits (parse : ParseFun) (inputYaml : Str)
    (labelMap : LabelMap) (h : labelMap.isEmpty = true) :
    ReplaceRunnerLabels parse inputYaml labelMap =
      some (inputYaml, false, none) := by
  rw [ReplaceRunnerLabels, if_pos h]

/-- Witness for claim C4: empty map with an always-failing parse and a
malformed document. -/
theorem empty_label_map_short_circuits_witness :
    ReplaceRunnerLabels parseC4w ("not: [valid".toList) [] =
      some (("not: [valid".toList), false, none) :=
  empty_label_map_short_circuits parseC4w ("not: [valid".toList) [] rfl

/-- Claim C5: for every parseable input and non-empty label map, each
no-op condition — absent top-level jobs entry, jobs whose runner entry
is missing (such jobs are skipped), of unsupported shape, or matching no
key of the map — yields the original text unchanged, `changed = false`
and no error. -/
theorem noop_conditions_return_input_unchanged (parse : ParseFun)
    (inputYaml : Str) (labelMap : LabelMap) (t : YamlNode)
    (h0 : labelMap.isEmpty = false) (h1 : parse inputYaml = .ok t)
    (h2 : findJobsNode t = none ∨
      ∃ js, findJobsNode t = some js ∧
        ((mapPairs js.content).all fun p => jobNoOpB labelMap p.2) = true) :
    ReplaceRunnerLabels parse inputYaml labelMap =
      some (inputYaml, false, none) := by
  simp only [ReplaceRunnerLabels, h0, Bool.false_eq_true, if_false, h1]
  rcases h2 with h2 | ⟨js, hjs, hall⟩
  · simp only [h2]
  · simp only [hjs, collectReplacements_eq_nil labelMap js.content hall,
      List.isEmpty_nil, if_true]

/-- Witness for claim C5: one job without a runner entry, one with a
mapping-shaped runner entry, one with a non-matching label. -/
theorem noop_conditions_return_input_unchanged_witness :
    ReplaceRunnerLabels parseC5w docC5w labelMapC5w =
      some (docC5w, false, none) :=
  noop_conditions_return_input_unchanged parseC5w docC5w labelMapC5w treeC5w
    (by decide) rfl (Or.inr ⟨jsC5w, rfl, by decide⟩)

/-- Claim C6: on a document whose job's runner entry is the inline
sequence `[ubuntu-latest, windows-latest]` with the map
`{ubuntu-latest: step-ubuntu-24, windows-latest: step-windows}`, both
elements are replaced independently, order and the bracket/comma
formatting are preserved, and `changed = true`. -/
theorem inline_sequence_both_elements_replaced :
    ReplaceRunnerLabels parseC6 docC6 labelMapC6 = some (outC6, true, none) := by
  decide

/-- Counterexample to claim C7 as stated: with the label map
`{a: b, b: a}`, the first application maps the document with runner `a`
to the one with runner `b`, and the second application maps it back, so
applying twice differs from applying once. -/
theorem idempotence_counterexample :
    ReplaceRunnerLabels parseC7 docC7a labelMapC7 = some (docC7b, true, none) ∧
    ReplaceRunnerLabels parseC7 docC7b labelMapC7 = some (docC7a, true, none) ∧
    docC7a ≠ docC7b :=
  ⟨by decide, by decide, by decide⟩

/-- Claim C7 (amended): applying `ReplaceRunnerLabels` twice with the
same label map yields the same result text as applying it once, provided
the first pass's output parses to a document none of whose runner labels
is a key of the map — which can fail when a new label written by the
first pass is itself a key of the map, as the counterexample shows. -/
theorem idempotent_when_no_label_matches_after_first_pass (parse : ParseFun)
    (inputYaml out : Str) (labelMap : LabelMap) (ch : Bool) (t : YamlNode)
    (h1 : ReplaceRunnerLabels parse inputYaml labelMap = some (out, ch, none))
    (h2 : parse out = .ok t)
    (h3 : noEligibleLabels labelMap t = true) :
    ReplaceRunnerLabels parse out labelMap = some (out, false, none) := by
  by_cases hm : labelMap.isEmpty
  · rw [ReplaceRunnerLabels, if_pos hm]
  · rw [noEligibleLabels] at h3
    simp only [ReplaceRunnerLabels, Bool.not_eq_true] at hm ⊢
    simp only [hm, Bool.false_eq_true, if_false, h2]
    cases hj : findJobsNode t with
    | none => simp only [hj]
    | some js =>
      rw [hj] at h3
      simp only [] at h3
      simp only [hj, h3, if_true]

/-- Witness for amended claim C7: with map `{c: d}` the first pass maps
the document with runner `c` to the one with runner `d`, whose labels
match nothing, so the second pass returns it unchanged. -/
theorem idempotent_when_no_label_matches_after_first_pass_witness :
    ReplaceRunnerLabels parseC7w docC7wb labelMapC7w =
      some (docC7wb, false, none) :=
  idempotent_when_no_label_matches_after_first_pass parseC7w docC7wa docC7wb
    labelMapC7w true treeC7wb (by decide) rfl rfl

/-- Claim C8: if at least one descriptor is collected but every
descriptor's 0-based line index is at least the number of lines, each is
skipped silently, `changed` stays false and the returned text equals the
input exactly (splitting on newline and rejoining restores the text). -/
theorem all_descriptors_out_of_bounds_skipped (parse : ParseFun)
    (inputYaml : Str) (labelMap : LabelMap) (t js : YamlNode)
    (h0 : labelMap.isEmpty = false) (h1 : parse inputYaml = .ok t)
    (h2 : findJobsNode t = some js)
    (h3 : (collectReplacements labelMap js.content).isEmpty = false)
    (h4 : ∀ r ∈ collectReplacements labelMap js.content,
        ((splitOnNl inputYaml).length : Int) ≤ r.lineNum) :
    ReplaceRunnerLabels parse inputYaml labelMap =
      some (inputYaml, false, none) := by
  simp only [ReplaceRunnerLabels, h0, Bool.false_eq_true, if_false, h1, h2, h3,
    patchAll_oob _ (splitOnNl inputYaml, false) h4, joinNl_splitOnNl]

/-- Witness for claim C8: a tree carrying a stale position far past the
end of the document, whose lone descriptor is skipped. -/
theorem all_descriptors_out_of_bounds_skipped_witness :
    ReplaceRunnerLabels parseC8w docC8w labelMapC8w =
      some (docC8w, false, none) :=
  all_descriptors_out_of_bounds_skipped parseC8w docC8w labelMapC8w
    treeC8w jsC8w (by decide) rfl rfl (by decide) (by decide)

/-- Claim C9: the patcher bounds-checks only a descriptor's line index,
never its column: for a descriptor whose line index is within the line
array, the patch step completes (rather than faulting on the slice) iff
the 0-based column is nonnegative and at most the target line's length. -/
theorem column_never_bounds_checked (lines : List Str) (u : Bool)
    (r : RunnerLabelMapping)
    (h0 : 0 ≤ r.lineNum) (h1 : r.lineNum < (lines.length : Int)) :
    (applyRepl (lines, u) r).isSome = true ↔
      (0 ≤ r.columnNum ∧
        r.columnNum ≤ ((lines.getD r.lineNum.toNat []).length : Int)) := by
  simp only [applyRepl]
  rw [if_neg (by omega), if_neg (by omega)]
  split
  · rename_i hc
    simp only [Option.isSome_none, Bool.false_eq_true, false_iff]
    omega
  · rename_i hc
    simp only [Option.isSome_some, true_iff]
    omega

/-- Witness for claim C9 at a concrete line and descriptor. -/
theorem column_never_bounds_checked_witness :
    (applyRepl ([lineC9w], false) rC9w).isSome = true :=
  (column_never_bounds_checked [lineC9w] false rC9w (by decide) (by decide)).mpr
    (by decide)

/-- Claim C10: `changed = true` does not imply the output differs from
the input — any in-bounds descriptor marks the operation changed, and
with the map `{a: a}` on a document whose runner is `a`, the result is
`changed = true` with output identical to the input. -/
theorem changed_flag_without_textual_difference :
    (∀ (lines : List Str) (u : Bool) (r : RunnerLabelMapping),
        0 ≤ r.lineNum → r.lineNum < (lines.length : Int) →
        0 ≤ r.columnNum →
        r.columnNum ≤ ((lines.getD r.lineNum.toNat []).length : Int) →
        ∃ lines' : List Str, applyRepl (lines, u) r = some (lines', true)) ∧
    ReplaceRunnerLabels parseC10 docC10 labelMapC10 =
      some (docC10, true, none) := by
  constructor
  · intro lines u r h0 h1 h2 h3
    exact ⟨_, applyRepl_apply (lines, u) r h0 h1 h2 h3⟩
  · decide

/-- Witness for claim C10's universally quantified part at a concrete
line and self-mapping descriptor. -/
theorem changed_flag_without_textual_difference_witness :
    ∃ lines' : List Str,
      applyRepl ([lineC10w], false) rC10w = some (lines', true) :=
  changed_flag_without_textual_difference.1 [lineC10w] false rC10w
    (by decide) (by decide) (by decide) (by decide)
